import Mathlib

/-!
Verification development for the survey-feedback backend (`src/server.js`).

The server keeps an append-only JSON file of survey responses, projects a CSV
artifact from the full response list after every successful submission, and
serves read-back endpoints (`/api/responses`, `/api/stats`).  This file embeds
the submission pipeline, the CSV projector, the stats computation and the
JSON persistence round trip as executable Lean definitions, and proves the
specified properties about them.

Modelling conventions:
* a JavaScript value stored in a survey record is a string, a number
  (modelled as `Int`; the code only ever stores integers) or an array of
  strings, following the data model of the record shape;
* a record (JS object) is an insertion-ordered association list of
  key/value pairs; JS property assignment keeps the position of an existing
  key and appends a fresh key at the end (`setKey`);
* the on-disk JSON file is modelled by `StoreFile`: absent, present but not
  parseable as JSON, present and parsing to a non-array JSON value, or
  present and parsing to an array of records;
* clock and randomness are explicit parameters (`nowIso`, `nowMs`, `rand`).
-/

/-- A value stored in a survey record: string, number, or array of strings. -/
inductive Value where
  | vstr (s : String)
  | vnum (n : Int)
  | varr (xs : List String)
deriving DecidableEq, Repr

/-- A survey record: a JS object as an insertion-ordered association list. -/
abbrev SRecord := List (String × Value)

/-- Property read `obj[k]`: first (unique) binding of `k`, if any. -/
def getKey : SRecord → String → Option Value
  | [], _ => none
  | (k', v') :: rest, k => if k' = k then some v' else getKey rest k

/-- Property write `obj[k] = v`: replace in place if `k` exists, else append
(JavaScript object assignment semantics). -/
def setKey : SRecord → String → Value → SRecord
  | [], k, v => [(k, v)]
  | (k', v') :: rest, k, v =>
    if k' = k then (k, v) :: rest else (k', v') :: setKey rest k v

/-- JavaScript truthiness of a stored value: `""` and `0` are falsy, every
other string, number and every array is truthy. -/
def truthy : Value → Bool
  | .vstr s => s ≠ ""
  | .vnum n => n ≠ 0
  | .varr _ => true

/-- Truthiness of `obj[k]` where the property may be absent (`undefined`). -/
def truthyOpt : Option Value → Bool
  | none => false
  | some v => truthy v

/-- Decimal digit characters of a natural number (JS number-to-string for
the non-negative integers the server manipulates). -/
def natChars (n : Nat) : List Char :=
  if h : n < 10 then [Char.ofNat (48 + n)]
  else natChars (n / 10) ++ [Char.ofNat (48 + n % 10)]
decreasing_by exact Nat.div_lt_self (by omega) (by omega)

/-- Decimal string of a natural number. -/
def natStr (n : Nat) : String := String.mk (natChars n)

/-- Decimal string of an integer (JS `String(number)` on integers). -/
def intStr (n : Int) : String :=
  if n < 0 then "-" ++ natStr n.natAbs else natStr n.toNat

/-- JavaScript `String(value)`: strings unchanged, numbers in decimal,
arrays joined by commas. -/
def jsString : Value → String
  | .vstr s => s
  | .vnum n => intStr n
  | .varr xs => String.intercalate "," xs

/- ===== CSV projector (`saveAsCSV`, src/server.js lines 163-187) ===== -/

/-- Keys of a record in property order. -/
def keysOf (r : SRecord) : List String := r.map Prod.fst

/-- `Set.add`: append the key if it is not already present. -/
def addKey (acc : List String) (k : String) : List String :=
  if k ∈ acc then acc else acc ++ [k]

/-- Add all keys of one record to the accumulated key set. -/
def addKeys (acc : List String) (ks : List String) : List String :=
  ks.foldl addKey acc

/-- All unique keys across all records, in first-occurrence order
(the `allKeys` set of `saveAsCSV`). -/
def allKeysOf (rs : List SRecord) : List String :=
  rs.foldl (fun acc r => addKeys acc (keysOf r)) []

/-- The CSV header list: all unique keys, sorted (`Array.from(allKeys).sort()`). -/
def csvHeaders (rs : List SRecord) : List String :=
  List.insertionSort (· ≤ ·) (allKeysOf rs)

/-- A header cell: the key wrapped in double quotes, with no escaping. -/
def quoteHeader (h : String) : String := "\"" ++ h ++ "\""

/-- The CSV header row. -/
def csvHeaderLine (rs : List SRecord) : String :=
  String.intercalate "," ((csvHeaders rs).map quoteHeader)

/-- Double every double-quote character (`value.replace(/"/g, onetwo)`). -/
def escQuotes (s : String) : String :=
  String.mk (s.data.flatMap (fun c => if c = '"' then ['"', '"'] else [c]))

/-- One CSV data cell: `response[header] || ''` stringified, quotes doubled,
wrapped in double quotes. -/
def csvField (r : SRecord) (k : String) : String :=
  let raw := match getKey r k with
    | some v => if truthy v then jsString v else ""
    | none => ""
  "\"" ++ escQuotes raw ++ "\""

/-- One CSV data row for a record, one cell per header. -/
def csvRow (hs : List String) (r : SRecord) : String :=
  String.intercalate "," (hs.map (csvField r))

/-- All CSV data rows, one per record in insertion order. -/
def csvRows (rs : List SRecord) : List String :=
  rs.map (csvRow (csvHeaders rs))

/-- The full CSV text: header row then data rows, newline-separated. -/
def csvContent (rs : List SRecord) : String :=
  String.intercalate "\n" (csvHeaderLine rs :: csvRows rs)

/-- `saveAsCSV`: returns the written CSV text, or `none` (no write at all)
when the record list is empty. -/
def saveAsCSV (rs : List SRecord) : Option String :=
  if rs.length = 0 then none else some (csvContent rs)

/- ===== Persistent state and the submission handler ===== -/

/-- State of the backing JSON file `responses/survey_responses.json`:
absent, present but not valid JSON, present and parsing to a non-array JSON
value, or present and parsing to an array of records. -/
inductive StoreFile where
  | absent
  | unparsable
  | parsedNonArray
  | parsedArray (rs : List SRecord)
deriving DecidableEq, Repr

/-- Server-visible persistent state: the JSON store file and the CSV
artifact content (if one was ever written). -/
structure ServerState where
  storeFile : StoreFile
  csvFile : Option String
deriving DecidableEq, Repr

/-- Reading the existing responses inside the submit handler
(src/server.js lines 126-137 plus the `push` on line 137): a missing file or
a JSON parse failure is caught and yields the empty list; content parsing to
a non-array makes the later `existingResponses.push` throw, which the outer
catch turns into a 500 error. -/
def readExisting : StoreFile → Except String (List SRecord)
  | .absent => .ok []
  | .unparsable => .ok []
  | .parsedNonArray => .error "existingResponses.push is not a function"
  | .parsedArray rs => .ok rs

/-- The generated response id: `Date.now() + under + Math.random` suffix
(src/server.js line 113), a current-time component joined to a random
component by an underscore. -/
def genId (nowMs : Nat) (rand : String) : String :=
  natStr nowMs ++ "_" ++ rand

/-- Enrichment of the submitted payload (src/server.js lines 107-113): the
timestamp is set to the current ISO instant when falsy/absent, then the id
is unconditionally overwritten with a freshly generated one. -/
def enrich (payload : SRecord) (nowIso : String) (nowMs : Nat) (rand : String) : SRecord :=
  let p1 := if truthyOpt (getKey payload "timestamp") then payload
            else setKey payload "timestamp" (.vstr nowIso)
  setKey p1 "id" (.vstr (genId nowMs rand))

/-- HTTP response of `POST /api/submit-survey`. -/
inductive SubmitResponse where
  | badRequest (error : String)
  | serverError (error : String)
  | success (message : String) (responseId : String) (totalResponses : Nat)
deriving DecidableEq, Repr

/-- The `POST /api/submit-survey` handler (src/server.js lines 96-160):
validate `userType`, enrich the payload, read the existing list (malformed
parse treated as empty; non-array parse throwing on `push`), append, write
the JSON file back and re-project the CSV, answering with the generated id
and the new total count. -/
def submitSurvey (st : ServerState) (payload : SRecord)
    (nowIso : String) (nowMs : Nat) (rand : String) :
    SubmitResponse × ServerState :=
  if truthyOpt (getKey payload "userType") = false then
    (.badRequest "User type is required", st)
  else
    let record := enrich payload nowIso nowMs rand
    match readExisting st.storeFile with
    | .error _ => (.serverError "Failed to save survey response", st)
    | .ok rs =>
      let rs' := rs ++ [record]
      let csv' := match saveAsCSV rs' with
        | some c => some c
        | none => st.csvFile
      (.success "Survey submitted successfully" (genId nowMs rand) rs'.length,
       { storeFile := .parsedArray rs', csvFile := csv' })

/- ===== Query handlers ===== -/

/-- HTTP response of `GET /api/responses`. -/
inductive ResponsesResult where
  | ok (count : Nat) (data : List SRecord)
  | okNonArray
  | notFound
deriving DecidableEq, Repr

/-- The `GET /api/responses` handler (src/server.js lines 190-207): read
and parse the JSON file, answering 404 on a read or parse failure; a
non-array parse still answers 200 but with no meaningful count. -/
def getAllResponses : StoreFile → ResponsesResult
  | .absent => .notFound
  | .unparsable => .notFound
  | .parsedNonArray => .okNonArray
  | .parsedArray rs => .ok rs.length rs

/-- Statistics object of `GET /api/stats`. -/
structure Stats where
  totalResponses : Nat
  stakeholderResponses : Nat
  participantResponses : Nat
  responsesByDate : List (String × Nat)
  latestResponse : Option Value
deriving DecidableEq, Repr

/-- One step of `getResponsesByDate`: bump the count of a date key in the
accumulator object, keeping existing key positions, appending new keys. -/
def bumpDate : List (String × Nat) → String → List (String × Nat)
  | [], d => [(d, 1)]
  | (k, n) :: rest, d =>
    if k = d then (k, n + 1) :: rest else (k, n) :: bumpDate rest d

/-- `getResponsesByDate` (src/server.js lines 252-259): fold every record's
calendar-day string into a date-to-count object.  The calendar-day function
(`new Date(timestamp).toDateString()`, local time) is an explicit
parameter applied to the record's `timestamp` property. -/
def buildDateCount (dateOf : Option Value → String) (rs : List SRecord) :
    List (String × Nat) :=
  rs.foldl (fun acc r => bumpDate acc (dateOf (getKey r "timestamp"))) []

/-- Count lookup in the date-count object (0 when the key is absent). -/
def lookupCount (d : String) : List (String × Nat) → Nat
  | [] => 0
  | (k, n) :: rest => if k = d then n else lookupCount d rest

/-- The `GET /api/stats` handler (src/server.js lines 225-250): 404 unless
the file reads and parses to an array (a non-array value throws on
`.filter` and is also answered 404); otherwise the computed statistics. -/
def getStats (dateOf : Option Value → String) : StoreFile → Option Stats
  | .parsedArray rs => some
    { totalResponses := rs.length
      stakeholderResponses :=
        (rs.filter (fun r => getKey r "userType" = some (.vstr "stakeholder"))).length
      participantResponses :=
        (rs.filter (fun r => getKey r "userType" = some (.vstr "participant"))).length
      responsesByDate := buildDateCount dateOf rs
      latestResponse := match rs.getLast? with
        | some r => getKey r "timestamp"
        | none => none }
  | _ => none

/- ===== Sequential submission runner ===== -/

/-- One submission request: the payload together with the clock and
randomness observed while handling it. -/
structure SubmitInput where
  payload : SRecord
  nowIso : String
  nowMs : Nat
  rand : String
deriving DecidableEq, Repr

/-- Handle one submission request against the current state. -/
def submitStep (st : ServerState) (i : SubmitInput) : SubmitResponse × ServerState :=
  submitSurvey st i.payload i.nowIso i.nowMs i.rand

/-- Handle a list of submission requests sequentially, collecting the
responses and the final state. -/
def runSubmits : ServerState → List SubmitInput → List SubmitResponse × ServerState
  | st, [] => ([], st)
  | st, i :: rest =>
    let out := submitStep st i
    let outs := runSubmits out.2 rest
    (out.1 :: outs.1, outs.2)

/-- The deployment's initial state: no JSON store, no CSV artifact. -/
def initialState : ServerState := ⟨.absent, none⟩

/-- A payload passing the handler's validation: truthy `userType`. -/
def validInput (i : SubmitInput) : Prop :=
  truthyOpt (getKey i.payload "userType") = true

instance (i : SubmitInput) : Decidable (validInput i) := by
  unfold validInput; infer_instance

/-- The record persisted for one submission request. -/
def enrichInput (i : SubmitInput) : SRecord :=
  enrich i.payload i.nowIso i.nowMs i.rand

/- ===== Well-formed quoted CSV fields (for the header-escaping claim) ===== -/

/-- Scanner state after an opening double quote: the remaining characters
form the body and closing quote of a well-formed quoted CSV field exactly
when every interior double quote is doubled and a final quote closes the
field. -/
def wfQuotedAux : List Char → Bool
  | [] => false
  | c :: rest =>
    if c = '"' then
      match rest with
      | [] => true
      | c2 :: rest2 => if c2 = '"' then wfQuotedAux rest2 else false
    else wfQuotedAux rest

/-- A well-formed quoted CSV field: a leading double quote, a body in which
every double quote is doubled, and a closing double quote (quoted-field CSV
convention). -/
def wellFormedQuotedField (s : String) : Bool :=
  match s.data with
  | [] => false
  | c :: rest => c = '"' && wfQuotedAux rest

/- ===== JSON serialization of the response list ===== -/

/-!
The submit handler persists with `JSON.stringify(existingResponses, null, 2)`
(src/server.js line 140) and the read paths recover the list with
`JSON.parse` (lines 194 and 229).  Both are host-platform functions, so they
are modelled here: `stringifyResponses` reproduces `JSON.stringify` with
two-space indentation on the record shape the store holds (objects whose
values are strings, integers, or arrays of strings), and `parseResponses`
models `JSON.parse` restricted to that same shape (whitespace-insensitive,
full escape handling, duplicate keys resolved by JS property assignment).
-/

/-- Lower-case hexadecimal digit character. -/
def hexDigit (n : Nat) : Char :=
  if n < 10 then Char.ofNat (48 + n) else Char.ofNat (87 + n)

/-- JSON string escaping of one character, as `JSON.stringify` performs it:
quote and backslash get a backslash escape, the named control characters use
their short escapes, other control characters use a `u00xx` escape, and
everything else is emitted verbatim. -/
def escChar (c : Char) : List Char :=
  if c = '"' then ['\\', '"']
  else if c = '\\' then ['\\', '\\']
  else if c = Char.ofNat 8 then ['\\', 'b']
  else if c = Char.ofNat 9 then ['\\', 't']
  else if c = Char.ofNat 10 then ['\\', 'n']
  else if c = Char.ofNat 12 then ['\\', 'f']
  else if c = Char.ofNat 13 then ['\\', 'r']
  else if c.toNat < 32 then
    ['\\', 'u', '0', '0', hexDigit (c.toNat / 16), hexDigit (c.toNat % 16)]
  else [c]

/-- JSON string escaping of a character list. -/
def escChars : List Char → List Char
  | [] => []
  | c :: rest => escChar c ++ escChars rest

/-- A JSON string literal: escaped content between double quotes. -/
def printStrLit (s : String) : List Char :=
  '"' :: (escChars s.data ++ ['"'])

/-- Decimal digit characters of an integer. -/
def intChars (n : Int) : List Char :=
  if n < 0 then '-' :: natChars n.natAbs else natChars n.toNat

/-- Indentation of `JSON.stringify(x, null, 2)` at nesting depth `d`. -/
def indentChars (d : Nat) : List Char := List.replicate (2 * d) ' '

/-- Separators and items following the first element of a pretty-printed
string array at depth `d`, up to and including the closing bracket. -/
def arrTail (d : Nat) : List String → List Char
  | [] => '\n' :: (indentChars d ++ [']'])
  | y :: ys => ',' :: '\n' :: (indentChars (d + 1) ++ printStrLit y ++ arrTail d ys)

/-- A pretty-printed JSON value at depth `d`. -/
def printValue (d : Nat) : Value → List Char
  | .vstr s => printStrLit s
  | .vnum n => intChars n
  | .varr [] => ['[', ']']
  | .varr (x :: xs) => '[' :: '\n' :: (indentChars (d + 1) ++ printStrLit x ++ arrTail d xs)

/-- Separators and entries following the first entry of a pretty-printed
object at depth `d`, up to and including the closing brace. -/
def objTail (d : Nat) : SRecord → List Char
  | [] => '\n' :: (indentChars d ++ ['}'])
  | e :: es =>
    ',' :: '\n' :: (indentChars (d + 1) ++ printStrLit e.1 ++ ':' :: ' ' ::
      (printValue (d + 1) e.2 ++ objTail d es))

/-- A pretty-printed record (JSON object) at depth `d`. -/
def printRecord (d : Nat) : SRecord → List Char
  | [] => ['{', '}']
  | e :: es =>
    '{' :: '\n' :: (indentChars (d + 1) ++ printStrLit e.1 ++ ':' :: ' ' ::
      (printValue (d + 1) e.2 ++ objTail d es))

/-- Separators and records following the first record of the top-level
pretty-printed array, up to and including the closing bracket. -/
def topTail : List SRecord → List Char
  | [] => ['\n', ']']
  | r :: rest => ',' :: '\n' :: (indentChars 1 ++ printRecord 1 r ++ topTail rest)

/-- Modelled from the platform: `JSON.stringify(responses, null, 2)` as the
submit handler writes the store file (src/server.js line 140). -/
def stringifyResponses : List SRecord → String
  | [] => "[]"
  | r :: rest => String.mk ('[' :: '\n' :: (indentChars 1 ++ printRecord 1 r ++ topTail rest))

/- ===== JSON parsing of the response list ===== -/

/-- JSON whitespace. -/
def isWsChar (c : Char) : Bool :=
  c == ' ' || c == '\n' || c == '\t' || c == '\r'

/-- Drop leading JSON whitespace. -/
def skipWs : List Char → List Char
  | [] => []
  | c :: rest => if isWsChar c then skipWs rest else c :: rest

/-- Value of a hexadecimal digit character. -/
def hexVal (c : Char) : Option Nat :=
  if 48 ≤ c.toNat ∧ c.toNat ≤ 57 then some (c.toNat - 48)
  else if 97 ≤ c.toNat ∧ c.toNat ≤ 102 then some (c.toNat - 87)
  else if 65 ≤ c.toNat ∧ c.toNat ≤ 70 then some (c.toNat - 55)
  else none

/-- The character denoted by a single-character JSON escape. -/
def unescChar (c : Char) : Option Char :=
  if c = '"' then some '"'
  else if c = '\\' then some '\\'
  else if c = '/' then some '/'
  else if c = 'b' then some (Char.ofNat 8)
  else if c = 'f' then some (Char.ofNat 12)
  else if c = 'n' then some (Char.ofNat 10)
  else if c = 'r' then some (Char.ofNat 13)
  else if c = 't' then some (Char.ofNat 9)
  else none

/-- Parse the body and closing quote of a JSON string literal, handling all
JSON escapes and rejecting unescaped control characters.  Returns the
decoded characters and the remaining input. -/
def parseStrBody : List Char → Option (List Char × List Char)
  | [] => none
  | c :: rest =>
    if c = '"' then some ([], rest)
    else if c = '\\' then
      match rest with
      | [] => none
      | e :: r2 =>
        if e = 'u' then
          match r2 with
          | h1 :: h2 :: h3 :: h4 :: r3 =>
            match hexVal h1, hexVal h2, hexVal h3, hexVal h4 with
            | some a, some b, some c2, some d =>
              (parseStrBody r3).map
                (fun p => (Char.ofNat (((a * 16 + b) * 16 + c2) * 16 + d) :: p.1, p.2))
            | _, _, _, _ => none
          | _ => none
        else
          match unescChar e with
          | some u => (parseStrBody r2).map (fun p => (u :: p.1, p.2))
          | none => none
    else if c.toNat < 32 then none
    else (parseStrBody rest).map (fun p => (c :: p.1, p.2))

/-- Parse a complete JSON string literal including its opening quote. -/
def parseStrLit : List Char → Option (List Char × List Char)
  | [] => none
  | c :: rest => if c = '"' then parseStrBody rest else none

/-- Decimal digit character test. -/
def isDigitC (c : Char) : Bool := 48 ≤ c.toNat && c.toNat ≤ 57

/-- Whether the input starts with a decimal digit. -/
def headIsDigit : List Char → Bool
  | [] => false
  | c :: _ => isDigitC c

/-- Consume a maximal run of decimal digits, extending the accumulator. -/
def parseNatAux (acc : Nat) : List Char → Nat × List Char
  | [] => (acc, [])
  | c :: rest =>
    if isDigitC c then parseNatAux (acc * 10 + (c.toNat - 48)) rest
    else (acc, c :: rest)

/-- Parse a natural number: at least one digit, maximal munch. -/
def parseNatNum : List Char → Option (Nat × List Char)
  | [] => none
  | c :: rest =>
    if isDigitC c then some (parseNatAux (c.toNat - 48) rest) else none

/-- Parse the items of a non-empty string array, positioned at the first
item; fuel bounds the number of items. -/
def parseArrItems : Nat → List Char → Option (List String × List Char)
  | 0, _ => none
  | fuel + 1, l =>
    match parseStrLit l with
    | none => none
    | some (s, r) =>
      match skipWs r with
      | [] => none
      | c :: r2 =>
        if c = ',' then
          (parseArrItems fuel (skipWs r2)).map (fun p => (String.mk s :: p.1, p.2))
        else if c = ']' then some ([String.mk s], r2)
        else none

/-- Parse one JSON value of the store's value domain: a string, an integer,
or an array of strings. -/
def parseValue (l : List Char) : Option (Value × List Char) :=
  match skipWs l with
  | [] => none
  | c :: rest =>
    if c = '"' then (parseStrBody rest).map (fun p => (Value.vstr (String.mk p.1), p.2))
    else if c = '[' then
      match skipWs rest with
      | [] => none
      | c2 :: r2 =>
        if c2 = ']' then some (Value.varr [], r2)
        else (parseArrItems (c2 :: r2).length (c2 :: r2)).map (fun p => (Value.varr p.1, p.2))
    else if c = '-' then (parseNatNum rest).map (fun p => (Value.vnum (-(p.1 : Int)), p.2))
    else (parseNatNum (c :: rest)).map (fun p => (Value.vnum ((p.1 : Int)), p.2))

/-- Parse the entries of a non-empty JSON object, positioned at the first
key; entries are added with JS property-assignment semantics (`setKey`), so
a duplicate key keeps its first position and last value, as `JSON.parse`
resolves duplicates. -/
def parseObjItems : Nat → SRecord → List Char → Option (SRecord × List Char)
  | 0, _, _ => none
  | fuel + 1, acc, l =>
    match parseStrLit l with
    | none => none
    | some (k, r) =>
      match skipWs r with
      | [] => none
      | c :: r2 =>
        if c = ':' then
          match parseValue r2 with
          | none => none
          | some (v, r3) =>
            match skipWs r3 with
            | [] => none
            | c2 :: r4 =>
              if c2 = ',' then parseObjItems fuel (setKey acc (String.mk k) v) (skipWs r4)
              else if c2 = '}' then some (setKey acc (String.mk k) v, r4)
              else none
        else none

/-- Parse one JSON object into a record. -/
def parseRecord (l : List Char) : Option (SRecord × List Char) :=
  match l with
  | [] => none
  | c :: rest =>
    if c = '{' then
      match skipWs rest with
      | [] => none
      | c2 :: r2 =>
        if c2 = '}' then some ([], r2)
        else parseObjItems (c2 :: r2).length [] (c2 :: r2)
    else none

/-- Parse the records of the non-empty top-level array, positioned at the
first record. -/
def parseTopItems : Nat → List Char → Option (List SRecord × List Char)
  | 0, _ => none
  | fuel + 1, l =>
    match parseRecord l with
    | none => none
    | some (r, rem) =>
      match skipWs rem with
      | [] => none
      | c :: r2 =>
        if c = ',' then (parseTopItems fuel (skipWs r2)).map (fun p => (r :: p.1, p.2))
        else if c = ']' then some ([r], r2)
        else none

/-- Modelled from the platform: `JSON.parse` as the read paths apply it to
the store file (src/server.js lines 194 and 229), restricted to the
top-level shape the store holds: an array of records.  Demands that only
whitespace follow the closing bracket, as `JSON.parse` does. -/
def parseResponses (s : String) : Option (List SRecord) :=
  match skipWs s.data with
  | [] => none
  | c :: rest =>
    if c = '[' then
      match skipWs rest with
      | [] => none
      | c2 :: r2 =>
        if c2 = ']' then
          if (skipWs r2).isEmpty then some [] else none
        else
          match parseTopItems (c2 :: r2).length (c2 :: r2) with
          | some (rs, rem) => if (skipWs rem).isEmpty then some rs else none
          | none => none
    else none

/- ===== Concrete sample data (used by witness theorems) ===== -/

/-- A valid participant submission request. -/
def sampleInput1 : SubmitInput :=
  ⟨[("userType", .vstr "participant"), ("event_question", .vstr "Workshop")],
   "2025-01-01T10:00:00.000Z", 1735725600000, "abc123def"⟩

/-- A valid stakeholder submission request carrying its own timestamp. -/
def sampleInput2 : SubmitInput :=
  ⟨[("userType", .vstr "stakeholder"), ("timestamp", .vstr "2025-01-02T09:00:00.000Z"),
    ("rating", .vnum 4)],
   "2025-01-02T09:30:00.000Z", 1735808400000, "zzz999aaa"⟩

/-- A calendar-day function that puts every timestamp on the same day. -/
def sampleDateOf : Option Value → String := fun _ => "Wed Jan 01 2025"

/-- Two stored records. -/
def sampleRec1 : SRecord :=
  [("userType", .vstr "participant"), ("timestamp", .vstr "2025-01-01T10:00:00.000Z"),
   ("id", .vstr "1_a")]

/-- Two stored records, second one. -/
def sampleRec2 : SRecord :=
  [("userType", .vstr "stakeholder"), ("timestamp", .vstr "2025-01-01T11:00:00.000Z"),
   ("id", .vstr "2_b")]

/-- A sample response list exercising every value shape. -/
def sampleResponses : List SRecord :=
  [[("userType", .vstr "participant"), ("rating", .vnum 5),
    ("tags", .varr ["a", "b"]), ("note", .vstr "he said \"hi\"")],
   [("userType", .vstr "stakeholder"), ("delta", .vnum (-3)), ("empty", .varr [])]]

/- ===== Helper lemmas: record operations ===== -/

theorem getKey_setKey_self (r : SRecord) (k : String) (v : Value) :
    getKey (setKey r k v) k = some v := by
  induction r with
  | nil => simp [setKey, getKey]
  | cons e rest ih =>
    obtain ⟨k', v'⟩ := e
    by_cases h : k' = k
    · simp [setKey, h, getKey]
    · simp [setKey, h, getKey, ih]

theorem getKey_setKey_ne (r : SRecord) (k k' : String) (v : Value) (h : k ≠ k') :
    getKey (setKey r k v) k' = getKey r k' := by
  induction r with
  | nil => simp [setKey, getKey, h]
  | cons e rest ih =>
    obtain ⟨k0, v0⟩ := e
    by_cases h0 : k0 = k
    · subst h0
      simp [setKey, getKey, h]
    · simp [setKey, h0, getKey, ih]

theorem setKey_of_not_mem (r : SRecord) (k : String) (v : Value) (h : k ∉ keysOf r) :
    setKey r k v = r ++ [(k, v)] := by
  induction r with
  | nil => simp [setKey]
  | cons e rest ih =>
    obtain ⟨k0, v0⟩ := e
    simp only [keysOf, List.map_cons, List.mem_cons] at h
    push_neg at h
    simp [setKey, Ne.symm h.1, ih (by simpa [keysOf] using h.2)]

/- ===== Helper lemmas: enrichment and the submit handler ===== -/

theorem getKey_enrich_id (p : SRecord) (iso : String) (ms : Nat) (rand : String) :
    getKey (enrich p iso ms rand) "id" = some (.vstr (genId ms rand)) := by
  unfold enrich
  exact getKey_setKey_self _ _ _

theorem getKey_enrich_timestamp_truthy (p : SRecord) (iso : String) (ms : Nat) (rand : String)
    (h : truthyOpt (getKey p "timestamp") = true) :
    getKey (enrich p iso ms rand) "timestamp" = getKey p "timestamp" := by
  unfold enrich
  rw [if_pos h]
  exact getKey_setKey_ne _ _ _ _ (by decide)

theorem getKey_enrich_timestamp_falsy (p : SRecord) (iso : String) (ms : Nat) (rand : String)
    (h : truthyOpt (getKey p "timestamp") = false) :
    getKey (enrich p iso ms rand) "timestamp" = some (.vstr iso) := by
  unfold enrich
  rw [if_neg (by simp [h])]
  rw [getKey_setKey_ne _ _ _ _ (by decide)]
  exact getKey_setKey_self _ _ _

theorem submitSurvey_invalid (st : ServerState) (payload : SRecord)
    (iso : String) (ms : Nat) (rand : String)
    (h : truthyOpt (getKey payload "userType") = false) :
    submitSurvey st payload iso ms rand = (.badRequest "User type is required", st) := by
  unfold submitSurvey
  rw [if_pos h]

theorem submitSurvey_ok (st : ServerState) (payload : SRecord)
    (iso : String) (ms : Nat) (rand : String) (rs : List SRecord)
    (hv : truthyOpt (getKey payload "userType") = true)
    (hr : readExisting st.storeFile = .ok rs) :
    submitSurvey st payload iso ms rand =
      (.success "Survey submitted successfully" (genId ms rand) (rs.length + 1),
       ⟨.parsedArray (rs ++ [enrich payload iso ms rand]),
        some (csvContent (rs ++ [enrich payload iso ms rand]))⟩) := by
  unfold submitSurvey
  rw [if_neg (by simp [hv]), hr]
  simp [saveAsCSV]

theorem submitSurvey_pushFails (st : ServerState) (payload : SRecord)
    (iso : String) (ms : Nat) (rand : String) (msg : String)
    (hv : truthyOpt (getKey payload "userType") = true)
    (hr : readExisting st.storeFile = .error msg) :
    submitSurvey st payload iso ms rand =
      (.serverError "Failed to save survey response", st) := by
  unfold submitSurvey
  rw [if_neg (by simp [hv]), hr]

/- ===== Claim C2 ===== -/

/-- Claim C2: if the submitted payload's userType is absent or empty, the
submission fails with the 400 validation error "User type is required" and
has no side effect: the server state (JSON store and CSV artifact) is
unchanged, so the total count is unchanged. -/
theorem C2_missing_userType_rejected_without_side_effect
    (st : ServerState) (payload : SRecord) (iso : String) (ms : Nat) (rand : String)
    (h : getKey payload "userType" = none ∨ getKey payload "userType" = some (.vstr "")) :
    submitSurvey st payload iso ms rand = (.badRequest "User type is required", st) := by
  apply submitSurvey_invalid
  rcases h with h | h <;> simp [truthyOpt, h, truthy]

/-- Witness for C2: submitting the empty object against the fresh server
leaves the state unchanged and answers the validation error. -/
theorem C2_witness :
    submitSurvey initialState [] "2025-01-01T00:00:00.000Z" 0 "r" =
      (.badRequest "User type is required", initialState) :=
  C2_missing_userType_rejected_without_side_effect initialState []
    "2025-01-01T00:00:00.000Z" 0 "r" (Or.inl rfl)

/- ===== Claim C6 (corrected) ===== -/

/-- Claim C6 (amended): when the backing JSON file exists but its content
fails to parse as JSON, the read treats the store as absent, the append
proceeds over the empty list and the submission succeeds.  (As originally
stated — for every malformed content, including content that parses to a
non-array JSON value — the claim is false; see the counterexample.) -/
theorem C6_unparsable_content_selfheals
    (csv : Option String) (payload : SRecord) (iso : String) (ms : Nat) (rand : String)
    (hv : truthyOpt (getKey payload "userType") = true) :
    submitSurvey ⟨.unparsable, csv⟩ payload iso ms rand =
      (.success "Survey submitted successfully" (genId ms rand) 1,
       ⟨.parsedArray [enrich payload iso ms rand],
        some (csvContent [enrich payload iso ms rand])⟩) := by
  simpa using submitSurvey_ok ⟨.unparsable, csv⟩ payload iso ms rand [] hv rfl

/-- Counterexample for C6 as stated: a store file whose content is valid
JSON but not an array of responses ("does not deserialize to the expected
collection") makes the submission fail with the 500 persistence error
instead of succeeding, leaving the state unchanged. -/
theorem C6_counterexample :
    (submitSurvey ⟨.parsedNonArray, none⟩ [("userType", .vstr "participant")]
        "2025-01-01T00:00:00.000Z" 0 "r").1 =
      .serverError "Failed to save survey response"
    ∧ (submitSurvey ⟨.parsedNonArray, none⟩ [("userType", .vstr "participant")]
        "2025-01-01T00:00:00.000Z" 0 "r").2 = ⟨.parsedNonArray, none⟩ := by
  constructor <;> rfl

/-- Witness for C6: a concrete valid submission against an unparsable store
succeeds with total count 1. -/
theorem C6_witness :
    submitSurvey ⟨.unparsable, none⟩ sampleInput1.payload
        sampleInput1.nowIso sampleInput1.nowMs sampleInput1.rand =
      (.success "Survey submitted successfully" (genId sampleInput1.nowMs sampleInput1.rand) 1,
       ⟨.parsedArray [enrichInput sampleInput1],
        some (csvContent [enrichInput sampleInput1])⟩) :=
  C6_unparsable_content_selfheals none sampleInput1.payload
    sampleInput1.nowIso sampleInput1.nowMs sampleInput1.rand (by decide)

/- ===== Claim C7 (corrected) ===== -/

/-- Claim C7 (amended): the append surfaces the 500 persistence failure,
with no state change, exactly when the read succeeds and the content parses
to a non-array JSON value; when the content fails to parse at all, the
store is instead treated as empty and the append succeeds (see the
counterexample against the original universal statement). -/
theorem C7_nonarray_content_fails_500
    (st : ServerState) (payload : SRecord) (iso : String) (ms : Nat) (rand : String)
    (h1 : st.storeFile = .parsedNonArray)
    (hv : truthyOpt (getKey payload "userType") = true) :
    submitSurvey st payload iso ms rand =
      (.serverError "Failed to save survey response", st) := by
  apply submitSurvey_pushFails st payload iso ms rand
    "existingResponses.push is not a function" hv
  rw [h1]
  rfl

/-- Counterexample for C7 as stated: the read succeeds on a present file
whose content is malformed (not valid JSON), yet the submission succeeds
with a 200 instead of failing with a storage error. -/
theorem C7_counterexample :
    (submitSurvey ⟨.unparsable, none⟩ [("userType", .vstr "stakeholder")]
        "2025-01-01T00:00:00.000Z" 1 "r9").1 =
      .success "Survey submitted successfully" (genId 1 "r9") 1 := by
  rfl

/-- Witness for C7: a concrete valid submission against a store parsing to
a non-array value answers the 500 error and changes nothing. -/
theorem C7_witness :
    submitSurvey ⟨.parsedNonArray, some "x"⟩ sampleInput1.payload
        sampleInput1.nowIso sampleInput1.nowMs sampleInput1.rand =
      (.serverError "Failed to save survey response", ⟨.parsedNonArray, some "x"⟩) :=
  C7_nonarray_content_fails_500 ⟨.parsedNonArray, some "x"⟩ sampleInput1.payload
    sampleInput1.nowIso sampleInput1.nowMs sampleInput1.rand rfl (by decide)

/- ===== Claim C8 (corrected) ===== -/

/-- Claim C8 (amended): for every valid submission, a truthy caller-supplied
timestamp is kept unchanged, while an absent or falsy (for example empty)
timestamp is replaced by the current instant's ISO string; the persisted id
is freshly generated as a current-time component joined to a random
component, overwrites any caller-supplied id, and equals the responseId
returned to the caller.  (As originally stated — every carried timestamp is
kept — the claim is false: an empty-string timestamp is replaced; see the
counterexample.) -/
theorem C8_enrichment_and_response_id
    (payload : SRecord) (iso : String) (ms : Nat) (rand : String) :
    (∀ v, getKey payload "timestamp" = some v → truthy v = true →
        getKey (enrich payload iso ms rand) "timestamp" = some v)
    ∧ (truthyOpt (getKey payload "timestamp") = false →
        getKey (enrich payload iso ms rand) "timestamp" = some (.vstr iso))
    ∧ getKey (enrich payload iso ms rand) "id" = some (.vstr (genId ms rand))
    ∧ genId ms rand = natStr ms ++ "_" ++ rand
    ∧ ∀ (st : ServerState) (rs : List SRecord), readExisting st.storeFile = .ok rs →
        truthyOpt (getKey payload "userType") = true →
        (submitSurvey st payload iso ms rand).1 =
          .success "Survey submitted successfully" (genId ms rand) (rs.length + 1) := by
  refine ⟨?_, ?_, getKey_enrich_id payload iso ms rand, rfl, ?_⟩
  · intro v hv htr
    rw [getKey_enrich_timestamp_truthy payload iso ms rand (by simp [truthyOpt, hv, htr])]
    exact hv
  · intro hf
    exact getKey_enrich_timestamp_falsy payload iso ms rand hf
  · intro st rs hr hv
    rw [submitSurvey_ok st payload iso ms rand rs hv hr]

/-- Counterexample for C8 as stated: a payload carrying the (empty-string)
timestamp does not keep it — enrichment replaces it by the current instant. -/
theorem C8_counterexample :
    getKey [("userType", Value.vstr "participant"), ("timestamp", Value.vstr "")]
        "timestamp" = some (Value.vstr "")
    ∧ getKey (enrich [("userType", Value.vstr "participant"), ("timestamp", Value.vstr "")]
        "2025-01-01T00:00:00.000Z" 0 "r") "timestamp" =
        some (Value.vstr "2025-01-01T00:00:00.000Z")
    ∧ Value.vstr "2025-01-01T00:00:00.000Z" ≠ Value.vstr "" := by
  refine ⟨rfl, ?_, by decide⟩
  rfl

/-- Witness for C8: a carried truthy timestamp is preserved, the id equals
the returned responseId, and the success response carries the generated id. -/
theorem C8_witness :
    getKey (enrichInput sampleInput2) "timestamp" =
      some (.vstr "2025-01-02T09:00:00.000Z")
    ∧ getKey (enrichInput sampleInput2) "id" =
      some (.vstr (genId sampleInput2.nowMs sampleInput2.rand))
    ∧ (submitSurvey initialState sampleInput2.payload
        sampleInput2.nowIso sampleInput2.nowMs sampleInput2.rand).1 =
      .success "Survey submitted successfully" (genId sampleInput2.nowMs sampleInput2.rand) 1 :=
  ⟨(C8_enrichment_and_response_id sampleInput2.payload sampleInput2.nowIso
      sampleInput2.nowMs sampleInput2.rand).1 _ rfl (by decide),
   (C8_enrichment_and_response_id sampleInput2.payload sampleInput2.nowIso
      sampleInput2.nowMs sampleInput2.rand).2.2.1,
   (C8_enrichment_and_response_id sampleInput2.payload sampleInput2.nowIso
      sampleInput2.nowMs sampleInput2.rand).2.2.2.2 initialState [] rfl (by decide)⟩

/- ===== Helper lemmas: well-formed quoted fields ===== -/

theorem wfQuotedAux_escaped (l : List Char) :
    wfQuotedAux ((l.flatMap fun c => if c = '"' then ['"', '"'] else [c]) ++ ['"']) = true := by
  induction l with
  | nil => rfl
  | cons c t ih =>
    by_cases hc : c = '"'
    · subst hc
      rw [List.flatMap_cons, if_pos rfl]
      show wfQuotedAux ('"' :: '"' :: _) = true
      rw [wfQuotedAux.eq_def]
      simpa using ih
    · rw [List.flatMap_cons, if_neg hc]
      show wfQuotedAux (c :: _) = true
      rw [wfQuotedAux.eq_def]
      simpa [hc] using ih

theorem wfQuotedAux_single_quote (l : List Char) (h : l.count '"' = 1) :
    wfQuotedAux (l ++ ['"']) = false := by
  induction l with
  | nil => simp at h
  | cons c t ih =>
    by_cases hc : c = '"'
    · subst hc
      have ht : t.count '"' = 0 := by
        simpa [List.count_cons] using h
      cases t with
      | nil => rfl
      | cons c2 t2 =>
        have hc2 : ¬c2 = '"' := by
          simp [List.count_cons] at ht
          exact fun he => by simp [he] at ht
        simp [wfQuotedAux, hc2]
    · have ht : t.count '"' = 1 := by
        simpa [List.count_cons, hc] using h
      rw [List.cons_append, wfQuotedAux.eq_def]
      simpa [hc] using ih ht

/- ===== Claim C4 (corrected) ===== -/

/-- Claim C4 (amended): in every projected CSV data row, a truthy value is
stringified (numbers in decimal, arrays comma-joined) and wrapped in double
quotes with internal quotes doubled — always yielding a well-formed quoted
field — while a falsy value (the number 0 or the empty string) and an
absent value alike render as the empty quoted field.  (As originally
stated — the number 0 renders as "0" — the claim is false; see the
counterexample.) -/
theorem C4_data_field_rendering (r : SRecord) (k : String) :
    (∀ v, getKey r k = some v → truthy v = true →
        csvField r k = "\"" ++ escQuotes (jsString v) ++ "\"")
    ∧ (∀ v, getKey r k = some v → truthy v = false → csvField r k = "\"\"")
    ∧ (getKey r k = none → csvField r k = "\"\"")
    ∧ wellFormedQuotedField (csvField r k) = true := by
  refine ⟨?_, ?_, ?_, ?_⟩
  · intro v hv htr
    simp [csvField, hv, htr]
  · intro v hv htr
    simp [csvField, hv, htr]
    rfl
  · intro hv
    simp [csvField, hv]
    rfl
  · show wellFormedQuotedField ("\"" ++ escQuotes _ ++ "\"") = true
    unfold wellFormedQuotedField
    rw [String.data_append, String.data_append]
    show wfQuotedAux _ = true
    exact wfQuotedAux_escaped _

/-- Counterexample for C4 as stated: the stored number 0 is falsy, so its
CSV cell is the empty quoted field, not a quoted "0". -/
theorem C4_counterexample :
    getKey [("a", Value.vnum 0)] "a" = some (Value.vnum 0)
    ∧ csvField [("a", Value.vnum 0)] "a" = "\"\""
    ∧ csvField [("a", Value.vnum 0)] "a" ≠ "\"0\"" := by
  refine ⟨rfl, rfl, by decide⟩

/-- Witness for C4: a truthy string value containing a double quote is
escaped by doubling; an empty-string value renders as the empty field. -/
theorem C4_witness :
    csvField [("a", Value.vstr "x\"y")] "a" =
      "\"" ++ escQuotes (jsString (Value.vstr "x\"y")) ++ "\""
    ∧ csvField [("b", Value.vstr "")] "b" = "\"\""
    ∧ wellFormedQuotedField (csvField [("a", Value.vstr "x\"y")] "a") = true :=
  ⟨(C4_data_field_rendering [("a", Value.vstr "x\"y")] "a").1 _ rfl (by decide),
   (C4_data_field_rendering [("b", Value.vstr "")] "b").2.1 _ rfl (by decide),
   (C4_data_field_rendering [("a", Value.vstr "x\"y")] "a").2.2.2⟩

/- ===== Claim C10 (corrected) ===== -/

/-- Claim C10 (amended): header cells are the key wrapped in double quotes
with no doubling of internal quotes — unlike data cells, which are always
well-formed — so a key name containing exactly one double-quote character
yields a header cell that is not a well-formed quoted CSV field.  (As
originally stated — every key containing a double quote yields a malformed
cell — the claim is false: a key whose quotes happen to pair up, such as
the two-character key consisting of two double quotes, yields a well-formed
cell; see the counterexample.) -/
theorem C10_header_quoting (k : String) :
    quoteHeader k = "\"" ++ k ++ "\""
    ∧ (k.data.count '"' = 1 → wellFormedQuotedField (quoteHeader k) = false)
    ∧ ∀ (s : String), wellFormedQuotedField ("\"" ++ escQuotes s ++ "\"") = true := by
  refine ⟨rfl, ?_, ?_⟩
  · intro h
    unfold wellFormedQuotedField quoteHeader
    rw [String.data_append, String.data_append]
    show (wfQuotedAux (k.data ++ ['"']) : Bool) = false
    exact wfQuotedAux_single_quote k.data h
  · intro s
    unfold wellFormedQuotedField
    rw [String.data_append, String.data_append]
    show wfQuotedAux _ = true
    exact wfQuotedAux_escaped _

/-- Counterexample for C10 as stated: the key made of two double-quote
characters contains a double quote, yet its header cell (four quotes) is a
well-formed quoted CSV field (decoding to a single quote, a different
name). -/
theorem C10_counterexample :
    '"' ∈ ("\"\"" : String).data
    ∧ wellFormedQuotedField (quoteHeader "\"\"") = true := by
  refine ⟨by decide, by decide⟩

/-- Witness for C10: a key with a single interior double quote yields a
malformed header cell, while the data cell for the same string is
well-formed. -/
theorem C10_witness :
    ("a\"b" : String).data.count '"' = 1
    ∧ wellFormedQuotedField (quoteHeader "a\"b") = false
    ∧ wellFormedQuotedField ("\"" ++ escQuotes "a\"b" ++ "\"") = true :=
  ⟨by decide, (C10_header_quoting "a\"b").2.1 (by decide),
   (C10_header_quoting "a\"b").2.2 "a\"b"⟩

/- ===== Helper lemmas: key collection ===== -/

theorem mem_addKey (acc : List String) (k x : String) :
    x ∈ addKey acc k ↔ x ∈ acc ∨ x = k := by
  unfold addKey
  by_cases h : k ∈ acc
  · simp only [if_pos h]
    constructor
    · exact fun hx => Or.inl hx
    · rintro (hx | rfl)
      · exact hx
      · exact h
  · simp [if_neg h]

theorem nodup_addKey (acc : List String) (k : String) (h : acc.Nodup) :
    (addKey acc k).Nodup := by
  unfold addKey
  by_cases hk : k ∈ acc
  · simpa [hk] using h
  · simp [hk, List.nodup_append, h]

theorem mem_addKeys (ks : List String) (acc : List String) (x : String) :
    x ∈ addKeys acc ks ↔ x ∈ acc ∨ x ∈ ks := by
  induction ks generalizing acc with
  | nil => simp [addKeys]
  | cons k ks ih =>
    show x ∈ addKeys (addKey acc k) ks ↔ _
    rw [ih, mem_addKey]
    simp [or_assoc]

theorem nodup_addKeys (ks : List String) (acc : List String) (h : acc.Nodup) :
    (addKeys acc ks).Nodup := by
  induction ks generalizing acc with
  | nil => exact h
  | cons k ks ih => exact ih _ (nodup_addKey acc k h)

theorem mem_foldl_addKeys (rs : List SRecord) (acc : List String) (x : String) :
    x ∈ rs.foldl (fun a r => addKeys a (keysOf r)) acc ↔
      x ∈ acc ∨ ∃ r ∈ rs, x ∈ keysOf r := by
  induction rs generalizing acc with
  | nil => simp
  | cons r rs ih =>
    show x ∈ List.foldl _ (addKeys acc (keysOf r)) rs ↔ _
    rw [ih, mem_addKeys]
    simp [or_assoc]

theorem nodup_foldl_addKeys (rs : List SRecord) (acc : List String) (h : acc.Nodup) :
    (rs.foldl (fun a r => addKeys a (keysOf r)) acc).Nodup := by
  induction rs generalizing acc with
  | nil => exact h
  | cons r rs ih => exact ih _ (nodup_addKeys _ _ h)

theorem mem_allKeysOf (rs : List SRecord) (x : String) :
    x ∈ allKeysOf rs ↔ ∃ r ∈ rs, x ∈ keysOf r := by
  unfold allKeysOf
  rw [mem_foldl_addKeys]
  simp

theorem nodup_allKeysOf (rs : List SRecord) : (allKeysOf rs).Nodup :=
  nodup_foldl_addKeys rs [] List.nodup_nil

theorem csvHeaders_sorted (rs : List SRecord) :
    List.Sorted (· ≤ ·) (csvHeaders rs) :=
  List.sorted_insertionSort _ _

theorem csvHeaders_nodup (rs : List SRecord) : (csvHeaders rs).Nodup :=
  (List.perm_insertionSort _ _).nodup_iff.mpr (nodup_allKeysOf rs)

theorem mem_csvHeaders (rs : List SRecord) (k : String) :
    k ∈ csvHeaders rs ↔ ∃ r ∈ rs, k ∈ keysOf r := by
  unfold csvHeaders
  rw [List.mem_insertionSort]
  exact mem_allKeysOf rs k

/- ===== Claim C3 ===== -/

/-- Claim C3: for every non-empty record list the projector writes a CSV
whose header list is the sorted, duplicate-free union of all keys across
all records; the data rows are exactly one row per record in insertion
order; a record missing a key renders the empty quoted field in that
column rather than omitting it; and on the empty record list the projector
returns without writing. -/
theorem C3_csv_projection (rs : List SRecord) (hne : rs ≠ []) :
    saveAsCSV rs = some (csvContent rs)
    ∧ List.Sorted (· ≤ ·) (csvHeaders rs)
    ∧ (csvHeaders rs).Nodup
    ∧ (∀ k, k ∈ csvHeaders rs ↔ ∃ r ∈ rs, k ∈ keysOf r)
    ∧ (csvRows rs).length = rs.length
    ∧ (∀ j (hj : j < rs.length) (hjr : j < (csvRows rs).length),
        (csvRows rs).get ⟨j, hjr⟩ = csvRow (csvHeaders rs) (rs.get ⟨j, hj⟩))
    ∧ (∀ r ∈ rs, ∀ k, getKey r k = none → csvField r k = "\"\"")
    ∧ saveAsCSV [] = none := by
  refine ⟨?_, csvHeaders_sorted rs, csvHeaders_nodup rs, mem_csvHeaders rs, ?_, ?_, ?_, rfl⟩
  · simp [saveAsCSV, hne]
  · simp [csvRows]
  · intro j hj hjr
    simp [csvRows, List.get_eq_getElem, List.getElem_map]
  · intro r _ k hk
    simp [csvField, hk]
    rfl

/-- Witness for C3: a concrete two-record list with differing keys. -/
theorem C3_witness :
    saveAsCSV [sampleRec1, [("zeta", Value.vnum 1)]] =
      some (csvContent [sampleRec1, [("zeta", Value.vnum 1)]])
    ∧ ((csvHeaders [sampleRec1, [("zeta", Value.vnum 1)]]).Nodup
    ∧ ∀ k, k ∈ csvHeaders [sampleRec1, [("zeta", Value.vnum 1)]] ↔
        ∃ r ∈ [sampleRec1, [("zeta", Value.vnum 1)]], k ∈ keysOf r) :=
  ⟨(C3_csv_projection [sampleRec1, [("zeta", Value.vnum 1)]] (by decide)).1,
   (C3_csv_projection [sampleRec1, [("zeta", Value.vnum 1)]] (by decide)).2.2.1,
   (C3_csv_projection [sampleRec1, [("zeta", Value.vnum 1)]] (by decide)).2.2.2.1⟩

/- ===== Helper lemmas: date counting ===== -/

theorem lookupCount_bumpDate (m : List (String × Nat)) (d d' : String) :
    lookupCount d (bumpDate m d') = lookupCount d m + (if d' = d then 1 else 0) := by
  induction m with
  | nil =>
    by_cases hd : d' = d <;> simp [bumpDate, lookupCount, hd]
  | cons e rest ih =>
    obtain ⟨k, n⟩ := e
    by_cases hk : k = d'
    · subst hk
      by_cases hd : k = d <;> simp [bumpDate, lookupCount, hd]
    · by_cases hd : k = d
      · subst hd
        have hdd : ¬d' = k := fun h => hk h.symm
        simp [bumpDate, lookupCount, hk, hdd]
      · simp [bumpDate, lookupCount, hk, hd, ih]

theorem fst_bumpDate (m : List (String × Nat)) (d : String) :
    (bumpDate m d).map Prod.fst =
      if d ∈ m.map Prod.fst then m.map Prod.fst else m.map Prod.fst ++ [d] := by
  induction m with
  | nil => simp [bumpDate]
  | cons e rest ih =>
    obtain ⟨k, n⟩ := e
    by_cases hk : k = d
    · subst hk
      simp [bumpDate]
    · have hdk : ¬d = k := fun h => hk h.symm
      by_cases hd : d ∈ rest.map Prod.fst <;>
        simp [bumpDate, hk, hdk, hd, ih]

theorem mem_fst_bumpDate (m : List (String × Nat)) (d x : String) :
    x ∈ (bumpDate m d).map Prod.fst ↔ x ∈ m.map Prod.fst ∨ x = d := by
  rw [fst_bumpDate]
  by_cases hd : d ∈ m.map Prod.fst
  · simp only [if_pos hd]
    constructor
    · exact fun h => Or.inl h
    · rintro (h | rfl)
      · exact h
      · exact hd
  · simp [if_neg hd]

theorem nodup_fst_bumpDate (m : List (String × Nat)) (d : String)
    (h : (m.map Prod.fst).Nodup) : ((bumpDate m d).map Prod.fst).Nodup := by
  rw [fst_bumpDate]
  by_cases hd : d ∈ m.map Prod.fst
  · simpa [hd] using h
  · simp [hd, List.nodup_append, h]

theorem lookupCount_foldl_bump (dateOf : Option Value → String) (rs : List SRecord)
    (acc : List (String × Nat)) (d : String) :
    lookupCount d (rs.foldl (fun a r => bumpDate a (dateOf (getKey r "timestamp"))) acc) =
      lookupCount d acc + rs.countP (fun r => dateOf (getKey r "timestamp") == d) := by
  induction rs generalizing acc with
  | nil => simp
  | cons r rest ih =>
    show lookupCount d (rest.foldl _ (bumpDate acc (dateOf (getKey r "timestamp")))) = _
    rw [ih, lookupCount_bumpDate, List.countP_cons]
    by_cases hd : dateOf (getKey r "timestamp") = d
    · simp [hd]
      omega
    · simp [hd]

theorem mem_fst_foldl_bump (dateOf : Option Value → String) (rs : List SRecord)
    (acc : List (String × Nat)) (x : String) :
    x ∈ (rs.foldl (fun a r => bumpDate a (dateOf (getKey r "timestamp"))) acc).map Prod.fst ↔
      x ∈ acc.map Prod.fst ∨ ∃ r ∈ rs, dateOf (getKey r "timestamp") = x := by
  induction rs generalizing acc with
  | nil => simp
  | cons r rest ih =>
    show x ∈ (rest.foldl _ (bumpDate acc (dateOf (getKey r "timestamp")))).map Prod.fst ↔ _
    rw [ih, mem_fst_bumpDate]
    constructor
    · rintro ((h | rfl) | h)
      · exact Or.inl h
      · exact Or.inr ⟨r, by simp⟩
      · obtain ⟨r2, hr2, he⟩ := h
        exact Or.inr ⟨r2, by simp [hr2], he⟩
    · rintro (h | ⟨r2, hr2, he⟩)
      · exact Or.inl (Or.inl h)
      · rcases List.mem_cons.mp hr2 with rfl | hr2
        · exact Or.inl (Or.inr he.symm)
        · exact Or.inr ⟨r2, hr2, he⟩

theorem nodup_fst_foldl_bump (dateOf : Option Value → String) (rs : List SRecord)
    (acc : List (String × Nat)) (h : (acc.map Prod.fst).Nodup) :
    ((rs.foldl (fun a r => bumpDate a (dateOf (getKey r "timestamp"))) acc).map Prod.fst).Nodup := by
  induction rs generalizing acc with
  | nil => exact h
  | cons r rest ih => exact ih _ (nodup_fst_bumpDate _ _ h)

/- ===== Claim C5 ===== -/

/-- Claim C5: the statistics computed over a stored record list count
stakeholder and participant records by strict equality of userType, map
each calendar-day string derived from a record timestamp to the number of
records on that day (so two records on the same day produce a single key
with count 2), and report as latestResponse the timestamp of the last
record in insertion order, irrespective of timestamp values. -/
theorem C5_stats_fields (dateOf : Option Value → String) (rs : List SRecord) (s : Stats)
    (hs : getStats dateOf (.parsedArray rs) = some s) :
    s.stakeholderResponses =
      (rs.filter (fun r => getKey r "userType" = some (.vstr "stakeholder"))).length
    ∧ s.participantResponses =
      (rs.filter (fun r => getKey r "userType" = some (.vstr "participant"))).length
    ∧ s.totalResponses = rs.length
    ∧ (∀ d, lookupCount d s.responsesByDate =
        rs.countP (fun r => dateOf (getKey r "timestamp") == d))
    ∧ (s.responsesByDate.map Prod.fst).Nodup
    ∧ (∀ d, d ∈ s.responsesByDate.map Prod.fst ↔
        ∃ r ∈ rs, dateOf (getKey r "timestamp") = d)
    ∧ (∀ r1 r2, dateOf (getKey r1 "timestamp") = dateOf (getKey r2 "timestamp") →
        buildDateCount dateOf [r1, r2] = [(dateOf (getKey r1 "timestamp"), 2)])
    ∧ (∀ h : rs ≠ [], s.latestResponse = getKey (rs.getLast h) "timestamp") := by
  simp only [getStats, Option.some.injEq] at hs
  subst hs
  refine ⟨rfl, rfl, rfl, ?_, ?_, ?_, ?_, ?_⟩
  · intro d
    unfold buildDateCount
    simpa [lookupCount] using lookupCount_foldl_bump dateOf rs [] d
  · exact nodup_fst_foldl_bump dateOf rs [] List.nodup_nil
  · intro d
    simpa using mem_fst_foldl_bump dateOf rs [] d
  · intro r1 r2 he
    simp [buildDateCount, bumpDate, he]
  · intro h
    simp [List.getLast?_eq_getLast rs h]

/-- Witness for C5: two records on the same calendar day produce a single
date key with count 2, and the latest response is the second record's
timestamp. -/
theorem C5_witness :
    buildDateCount sampleDateOf [sampleRec1, sampleRec2] =
      [(sampleDateOf (getKey sampleRec1 "timestamp"), 2)]
    ∧ ∀ s, getStats sampleDateOf (.parsedArray [sampleRec1, sampleRec2]) = some s →
        lookupCount "Wed Jan 01 2025" s.responsesByDate =
          List.countP (fun r => sampleDateOf (getKey r "timestamp") == "Wed Jan 01 2025")
            [sampleRec1, sampleRec2] :=
  ⟨(C5_stats_fields sampleDateOf [sampleRec1, sampleRec2] _ rfl).2.2.2.2.2.2.1
      sampleRec1 sampleRec2 rfl,
   fun s hs => (C5_stats_fields sampleDateOf [sampleRec1, sampleRec2] s hs).2.2.2.1
      "Wed Jan 01 2025"⟩

/- ===== Helper lemmas: sequential submissions ===== -/

theorem runSubmits_cons (st : ServerState) (i : SubmitInput) (rest : List SubmitInput) :
    runSubmits st (i :: rest) =
      ((submitStep st i).1 :: (runSubmits (submitStep st i).2 rest).1,
       (runSubmits (submitStep st i).2 rest).2) := rfl

theorem runSubmits_spec (inputs : List SubmitInput) (st : ServerState) (rs : List SRecord)
    (hr : readExisting st.storeFile = .ok rs) (hv : ∀ i ∈ inputs, validInput i) :
    (runSubmits st inputs).1.length = inputs.length
    ∧ (∀ j (hj : j < inputs.length) (hjr : j < (runSubmits st inputs).1.length),
        (runSubmits st inputs).1.get ⟨j, hjr⟩ =
          .success "Survey submitted successfully"
            (genId (inputs.get ⟨j, hj⟩).nowMs (inputs.get ⟨j, hj⟩).rand) (rs.length + j + 1))
    ∧ (inputs ≠ [] →
        (runSubmits st inputs).2.storeFile = .parsedArray (rs ++ inputs.map enrichInput)) := by
  induction inputs generalizing st rs with
  | nil =>
    refine ⟨rfl, ?_, ?_⟩
    · intro j hj
      exact absurd hj (Nat.not_lt_zero j)
    · intro hne
      exact absurd rfl hne
  | cons i rest ih =>
    have hvi : validInput i := hv i (List.mem_cons_self i rest)
    have hstep : submitStep st i =
        (.success "Survey submitted successfully" (genId i.nowMs i.rand) (rs.length + 1),
         ⟨.parsedArray (rs ++ [enrichInput i]),
          some (csvContent (rs ++ [enrichInput i]))⟩) := by
      show submitSurvey st i.payload i.nowIso i.nowMs i.rand = _
      exact submitSurvey_ok st i.payload i.nowIso i.nowMs i.rand rs hvi hr
    have ih' := ih (⟨.parsedArray (rs ++ [enrichInput i]),
        some (csvContent (rs ++ [enrichInput i]))⟩ : ServerState)
      (rs ++ [enrichInput i]) rfl (fun j hj => hv j (List.mem_cons_of_mem i hj))
    rw [runSubmits_cons, hstep]
    refine ⟨?_, ?_, ?_⟩
    · simpa using ih'.1
    · intro j hj hjr
      cases j with
      | zero => rfl
      | succ j =>
        have hj2 : j < rest.length := by simpa using hj
        have hjr2 : j < (runSubmits
            (⟨.parsedArray (rs ++ [enrichInput i]),
              some (csvContent (rs ++ [enrichInput i]))⟩ : ServerState) rest).1.length := by
          rw [ih'.1]
          exact hj2
        have h2 := ih'.2.1 j hj2 hjr2
        have harith : (rs ++ [enrichInput i]).length + j + 1 = rs.length + (j + 1) + 1 := by
          simp
          omega
        rw [harith] at h2
        exact h2
    · intro _
      cases rest with
      | nil => simp [runSubmits]
      | cons i2 rest2 =>
        have h3 := ih'.2.2 (List.cons_ne_nil i2 rest2)
        rw [h3]
        simp

/- ===== Claim C1 ===== -/

/-- Claim C1: starting from an absent store, N sequential valid submissions
each answer success with totalResponses equal to their 1-based position;
afterwards the store holds exactly the N enriched records in submission
order, the responses endpoint answers count N with those records, and the
stats endpoint reports totalResponses N; moreover every successful append
onto a store holding `rs` produces `rs` with exactly one new record at the
end, the earlier records unchanged. -/
theorem C1_sequential_submissions (inputs : List SubmitInput) (dateOf : Option Value → String)
    (hne : inputs ≠ []) (hval : ∀ i ∈ inputs, validInput i) :
    ((runSubmits initialState inputs).1.length = inputs.length
    ∧ (∀ j (hj : j < inputs.length) (hjr : j < (runSubmits initialState inputs).1.length),
        (runSubmits initialState inputs).1.get ⟨j, hjr⟩ =
          .success "Survey submitted successfully"
            (genId (inputs.get ⟨j, hj⟩).nowMs (inputs.get ⟨j, hj⟩).rand) (j + 1))
    ∧ (runSubmits initialState inputs).2.storeFile = .parsedArray (inputs.map enrichInput)
    ∧ getAllResponses (runSubmits initialState inputs).2.storeFile =
        .ok inputs.length (inputs.map enrichInput)
    ∧ (getStats dateOf (runSubmits initialState inputs).2.storeFile).map Stats.totalResponses =
        some inputs.length)
    ∧ ∀ (st : ServerState) (rs : List SRecord) (i : SubmitInput), validInput i →
        st.storeFile = .parsedArray rs →
        (submitStep st i).2.storeFile = .parsedArray (rs ++ [enrichInput i]) := by
  have h := runSubmits_spec inputs initialState [] rfl hval
  have hst : (runSubmits initialState inputs).2.storeFile =
      .parsedArray (inputs.map enrichInput) := by
    simpa using h.2.2 hne
  refine ⟨⟨h.1, ?_, hst, ?_, ?_⟩, ?_⟩
  · intro j hj hjr
    simpa using h.2.1 j hj hjr
  · rw [hst]
    simp [getAllResponses]
  · rw [hst]
    simp [getStats]
  · intro st rs i hvi hstore
    have := submitSurvey_ok st i.payload i.nowIso i.nowMs i.rand rs hvi
      (by rw [hstore]; rfl)
    show (submitSurvey st i.payload i.nowIso i.nowMs i.rand).2.storeFile = _
    rw [this]
    rfl

/-- Witness for C1: two concrete valid submissions from the absent store
leave exactly the two enriched records, readable with count 2 and stats
total 2. -/
theorem C1_witness :
    (runSubmits initialState [sampleInput1, sampleInput2]).2.storeFile =
      .parsedArray [enrichInput sampleInput1, enrichInput sampleInput2]
    ∧ getAllResponses (runSubmits initialState [sampleInput1, sampleInput2]).2.storeFile =
      .ok 2 [enrichInput sampleInput1, enrichInput sampleInput2]
    ∧ (getStats sampleDateOf
        (runSubmits initialState [sampleInput1, sampleInput2]).2.storeFile).map
        Stats.totalResponses = some 2 :=
  ⟨(C1_sequential_submissions [sampleInput1, sampleInput2] sampleDateOf
      (by decide) (by decide)).1.2.2.1,
   (C1_sequential_submissions [sampleInput1, sampleInput2] sampleDateOf
      (by decide) (by decide)).1.2.2.2.1,
   (C1_sequential_submissions [sampleInput1, sampleInput2] sampleDateOf
      (by decide) (by decide)).1.2.2.2.2⟩

/- ===== Helper lemmas: JSON round trip, strings and whitespace ===== -/

theorem stringMk_data (s : String) : String.mk s.data = s := rfl

theorem skipWs_cons_ws (c : Char) (l : List Char) (h : isWsChar c = true) :
    skipWs (c :: l) = skipWs l := by
  simp [skipWs, h]

theorem skipWs_cons_not (c : Char) (l : List Char) (h : isWsChar c = false) :
    skipWs (c :: l) = c :: l := by
  simp [skipWs, h]

theorem skipWs_ws_append (l1 l2 : List Char) (h : ∀ c ∈ l1, isWsChar c = true) :
    skipWs (l1 ++ l2) = skipWs l2 := by
  induction l1 with
  | nil => rfl
  | cons c t ih =>
    rw [List.cons_append, skipWs_cons_ws c _ (h c (List.mem_cons_self c t))]
    exact ih (fun x hx => h x (List.mem_cons_of_mem c hx))

theorem skipWs_indent (d : Nat) (l : List Char) :
    skipWs (indentChars d ++ l) = skipWs l := by
  apply skipWs_ws_append
  intro c hc
  rw [List.eq_of_mem_replicate hc]
  rfl

theorem hexVal_hexDigit (n : Nat) (h : n < 16) : hexVal (hexDigit n) = some n := by
  interval_cases n <;> rfl

theorem isDigitC_not_ws (c : Char) (h : isDigitC c = true) : isWsChar c = false := by
  simp only [isDigitC, Bool.and_eq_true, decide_eq_true_eq] at h
  simp only [isWsChar, Bool.or_eq_false_iff, beq_eq_false_iff_ne]
  refine ⟨⟨⟨?_, ?_⟩, ?_⟩, ?_⟩ <;> rintro rfl <;> simp at h

theorem isDigitC_ne (c : Char) (h : isDigitC c = true) (x : Char)
    (hx : x.toNat < 48 ∨ 57 < x.toNat) : ¬c = x := by
  simp only [isDigitC, Bool.and_eq_true, decide_eq_true_eq] at h
  rintro rfl
  omega

/- ===== Helper lemmas: JSON string escaping round trip ===== -/

theorem parse_escChars (s rest : List Char) :
    parseStrBody (escChars s ++ '"' :: rest) = some (s, rest) := by
  induction s with
  | nil =>
    show parseStrBody ([] ++ '"' :: rest) = _
    rw [List.nil_append, parseStrBody.eq_def]
    simp
  | cons c t ih =>
    show parseStrBody ((escChar c ++ escChars t) ++ '"' :: rest) = _
    rw [List.append_assoc]
    unfold escChar
    by_cases h1 : c = '"'
    · subst h1
      rw [if_pos rfl]
      show parseStrBody ('\\' :: '"' :: (escChars t ++ '"' :: rest)) = _
      rw [parseStrBody.eq_def]
      simp [unescChar, ih]
    · rw [if_neg h1]
      by_cases h2 : c = '\\'
      · subst h2
        rw [if_pos rfl]
        show parseStrBody ('\\' :: '\\' :: (escChars t ++ '"' :: rest)) = _
        rw [parseStrBody.eq_def]
        simp [unescChar, ih]
      · rw [if_neg h2]
        by_cases h3 : c = Char.ofNat 8
        · subst h3
          rw [if_pos rfl]
          show parseStrBody ('\\' :: 'b' :: (escChars t ++ '"' :: rest)) = _
          rw [parseStrBody.eq_def]
          simp [unescChar, ih]
        · rw [if_neg h3]
          by_cases h4 : c = Char.ofNat 9
          · subst h4
            rw [if_pos rfl]
            show parseStrBody ('\\' :: 't' :: (escChars t ++ '"' :: rest)) = _
            rw [parseStrBody.eq_def]
            simp [unescChar, ih]
          · rw [if_neg h4]
            by_cases h5 : c = Char.ofNat 10
            · subst h5
              rw [if_pos rfl]
              show parseStrBody ('\\' :: 'n' :: (escChars t ++ '"' :: rest)) = _
              rw [parseStrBody.eq_def]
              simp [unescChar, ih]
            · rw [if_neg h5]
              by_cases h6 : c = Char.ofNat 12
              · subst h6
                rw [if_pos rfl]
                show parseStrBody ('\\' :: 'f' :: (escChars t ++ '"' :: rest)) = _
                rw [parseStrBody.eq_def]
                simp [unescChar, ih]
              · rw [if_neg h6]
                by_cases h7 : c = Char.ofNat 13
                · subst h7
                  rw [if_pos rfl]
                  show parseStrBody ('\\' :: 'r' :: (escChars t ++ '"' :: rest)) = _
                  rw [parseStrBody.eq_def]
                  simp [unescChar, ih]
                · rw [if_neg h7]
                  by_cases h8 : c.toNat < 32
                  · rw [if_pos h8]
                    show parseStrBody ('\\' :: 'u' :: '0' :: '0' ::
                      hexDigit (c.toNat / 16) :: hexDigit (c.toNat % 16) ::
                      (escChars t ++ '"' :: rest)) = _
                    rw [parseStrBody.eq_def]
                    simp only [reduceIte, reduceCtorEq]
                    rw [hexVal_hexDigit (c.toNat / 16) (by omega),
                        hexVal_hexDigit (c.toNat % 16) (by omega)]
                    have hc : hexVal '0' = some 0 := rfl
                    rw [hc]
                    have hn : c.toNat / 16 * 16 + c.toNat % 16 = c.toNat := by omega
                    simp [ih, hn, Char.ofNat_toNat]
                  · rw [if_neg h8]
                    show parseStrBody (c :: (escChars t ++ '"' :: rest)) = _
                    rw [parseStrBody.eq_def]
                    simp [h1, h2, h8, ih]

theorem parseStrLit_print (s : String) (rest : List Char) :
    parseStrLit (printStrLit s ++ rest) = some (s.data, rest) := by
  show parseStrLit (('"' :: (escChars s.data ++ ['"'])) ++ rest) = _
  simp only [List.cons_append, List.append_assoc, List.singleton_append]
  simp only [parseStrLit, if_pos rfl]
  exact parse_escChars s.data rest

/- ===== Helper lemmas: decimal number round trip ===== -/

theorem toNat_digitChar (d : Nat) (h : d < 10) : (Char.ofNat (48 + d)).toNat = 48 + d := by
  interval_cases d <;> rfl

theorem natChars_ne_nil (n : Nat) : natChars n ≠ [] := by
  rw [natChars.eq_def]
  split <;> simp

theorem natChars_all_digits (n : Nat) : ∀ c ∈ natChars n, isDigitC c = true := by
  induction n using Nat.strong_induction_on with
  | _ n ih =>
    rw [natChars.eq_def]
    split
    · next h =>
      intro c hc
      simp only [List.mem_singleton] at hc
      subst hc
      simp [isDigitC, toNat_digitChar n h]
      omega
    · next h =>
      intro c hc
      rcases List.mem_append.mp hc with hc | hc
      · exact ih (n / 10) (Nat.div_lt_self (by omega) (by omega)) c hc
      · simp only [List.mem_singleton] at hc
        subst hc
        simp [isDigitC, toNat_digitChar (n % 10) (by omega)]
        omega

theorem parseNatAux_not_digit (acc : Nat) (l : List Char) (h : headIsDigit l = false) :
    parseNatAux acc l = (acc, l) := by
  cases l with
  | nil => rfl
  | cons c t =>
    simp only [headIsDigit] at h
    simp [parseNatAux, h]

theorem parseNatAux_append (m : Nat) : ∀ (acc : Nat) (rest : List Char),
    parseNatAux acc (natChars m ++ rest) =
      parseNatAux (acc * 10 ^ (natChars m).length + m) rest := by
  induction m using Nat.strong_induction_on with
  | _ m ih =>
    intro acc rest
    rw [natChars.eq_def]
    split
    · next h =>
      rw [List.singleton_append]
      have hd : isDigitC (Char.ofNat (48 + m)) = true := by
        simp [isDigitC, toNat_digitChar m h]
        omega
      simp only [parseNatAux, hd, if_pos, List.length_singleton, pow_one,
        toNat_digitChar m h]
      congr 1
      omega
    · next h =>
      rw [List.append_assoc, ih (m / 10) (Nat.div_lt_self (by omega) (by omega)),
        List.singleton_append]
      have hd : isDigitC (Char.ofNat (48 + m % 10)) = true := by
        simp [isDigitC, toNat_digitChar (m % 10) (by omega)]
        omega
      simp only [parseNatAux, hd, if_pos, toNat_digitChar (m % 10) (by omega)]
      congr 1
      have hdm : m / 10 * 10 + m % 10 = m := by omega
      calc (acc * 10 ^ (natChars (m / 10)).length + m / 10) * 10 + (48 + m % 10 - 48)
          = acc * (10 ^ (natChars (m / 10)).length * 10) + (m / 10 * 10 + m % 10) := by
            have h48 : 48 + m % 10 - 48 = m % 10 := by omega
            rw [h48]
            ring
        _ = acc * 10 ^ ((natChars (m / 10)).length + 1) + m := by
            rw [hdm, pow_succ]
        _ = acc * 10 ^ (natChars (m / 10) ++ [Char.ofNat (48 + m % 10)]).length + m := by
            simp

theorem parseNatNum_natChars (n : Nat) (rest : List Char) (h : headIsDigit rest = false) :
    parseNatNum (natChars n ++ rest) = some (n, rest) := by
  obtain ⟨c0, t0, h0⟩ := List.exists_cons_of_ne_nil (natChars_ne_nil n)
  have hd0 : isDigitC c0 = true := natChars_all_digits n c0 (by rw [h0]; exact List.mem_cons_self c0 t0)
  have heq : parseNatNum (natChars n ++ rest) = some (parseNatAux 0 (natChars n ++ rest)) := by
    rw [h0, List.cons_append]
    simp [parseNatNum, parseNatAux, hd0]
  rw [heq, parseNatAux_append n 0 rest]
  simp only [Nat.zero_mul, Nat.zero_add]
  rw [parseNatAux_not_digit n rest h]

/- ===== Helper lemmas: value round trip ===== -/

theorem printStrLit_cons (s : String) (X : List Char) :
    printStrLit s ++ X = '"' :: (escChars s.data ++ ('"' :: X)) := by
  simp [printStrLit]

theorem arrTail_length (d : Nat) (xs : List String) : xs.length ≤ (arrTail d xs).length := by
  induction xs with
  | nil => simp [arrTail]
  | cons y ys ih =>
    simp only [arrTail, List.length_cons, List.length_append]
    omega

theorem parse_arrItems (d : Nat) (xs : List String) : ∀ (x : String) (rest : List Char)
    (fuel : Nat), xs.length + 1 ≤ fuel →
    parseArrItems fuel (printStrLit x ++ (arrTail d xs ++ rest)) = some (x :: xs, rest) := by
  induction xs with
  | nil =>
    intro x rest fuel hfuel
    cases fuel with
    | zero => omega
    | succ f =>
      have hskip : skipWs (arrTail d [] ++ rest) = ']' :: rest := by
        show skipWs ('\n' :: (indentChars d ++ [']']) ++ rest) = _
        rw [List.cons_append, skipWs_cons_ws '\n' _ rfl, List.append_assoc, skipWs_indent,
          List.singleton_append, skipWs_cons_not ']' _ rfl]
      simp [parseArrItems, parseStrLit_print, hskip, stringMk_data]
  | cons y ys ih =>
    intro x rest fuel hfuel
    cases fuel with
    | zero => omega
    | succ f =>
      have hskip : skipWs (arrTail d (y :: ys) ++ rest) =
          ',' :: ('\n' :: (indentChars (d + 1) ++ printStrLit y ++ arrTail d ys) ++ rest) := by
        show skipWs (',' :: '\n' :: (indentChars (d + 1) ++ printStrLit y ++ arrTail d ys)
          ++ rest) = _
        rw [List.cons_append, List.cons_append, skipWs_cons_not ',' _ rfl]
      have hskip2 : skipWs ('\n' :: (indentChars (d + 1) ++
          (printStrLit y ++ (arrTail d ys ++ rest)))) =
          printStrLit y ++ (arrTail d ys ++ rest) := by
        rw [skipWs_cons_ws '\n' _ rfl, skipWs_indent, printStrLit_cons,
          skipWs_cons_not '"' _ rfl, ← printStrLit_cons]
      have hih := ih y rest f (by simp only [List.length_cons] at hfuel; omega)
      simp [parseArrItems, parseStrLit_print, hskip, hskip2, hih, stringMk_data]

theorem parseValue_print (v : Value) (d : Nat) (rest : List Char)
    (h : headIsDigit rest = false) :
    parseValue (printValue d v ++ rest) = some (v, rest) := by
  cases v with
  | vstr s =>
    show parseValue (printStrLit s ++ rest) = _
    have hskip : skipWs ('"' :: (escChars s.data ++ ('"' :: rest))) =
        '"' :: (escChars s.data ++ ('"' :: rest)) := skipWs_cons_not '"' _ rfl
    simp [parseValue, printStrLit_cons, hskip, parse_escChars, stringMk_data]
  | vnum n =>
    show parseValue (intChars n ++ rest) = _
    unfold intChars
    by_cases hn : n < 0
    · rw [if_pos hn, List.cons_append]
      have hpn := parseNatNum_natChars n.natAbs rest h
      simp [parseValue, skipWs_cons_not '-' _ rfl, hpn]
      rw [abs_of_nonpos (le_of_lt hn), neg_neg]
    · rw [if_neg hn]
      obtain ⟨c0, t0, h0⟩ := List.exists_cons_of_ne_nil (natChars_ne_nil n.toNat)
      have hd0 : isDigitC c0 = true :=
        natChars_all_digits _ c0 (by rw [h0]; exact List.mem_cons_self _ _)
      have hws := isDigitC_not_ws c0 hd0
      have hne1 : ¬c0 = '"' := isDigitC_ne c0 hd0 '"' (Or.inl (by decide))
      have hne2 : ¬c0 = '[' := isDigitC_ne c0 hd0 '[' (Or.inr (by decide))
      have hne3 : ¬c0 = '-' := isDigitC_ne c0 hd0 '-' (Or.inl (by decide))
      have hpn := parseNatNum_natChars n.toNat rest h
      have hval : ((n.toNat : Int)) = n := by omega
      rw [h0] at hpn
      show parseValue (natChars n.toNat ++ rest) = _
      rw [h0, List.cons_append]
      simp [parseValue, skipWs_cons_not c0 _ hws, hne1, hne2, hne3]
      exact ⟨n.toNat, hpn, hval⟩
  | varr xs =>
    cases xs with
    | nil => rfl
    | cons x xs2 =>
      show parseValue (('[' :: '\n' ::
        (indentChars (d + 1) ++ printStrLit x ++ arrTail d xs2)) ++ rest) = _
      have hskip2 : skipWs ('\n' :: (indentChars (d + 1) ++
          ('"' :: (escChars x.data ++ ('"' :: (arrTail d xs2 ++ rest)))))) =
          '"' :: (escChars x.data ++ ('"' :: (arrTail d xs2 ++ rest))) := by
        rw [skipWs_cons_ws '\n' _ rfl, skipWs_indent, skipWs_cons_not '"' _ rfl]
      have hlen : xs2.length + 1 ≤
          ('"' :: (escChars x.data ++ ('"' :: (arrTail d xs2 ++ rest)))).length := by
        have := arrTail_length d xs2
        simp [List.length_append]
        omega
      have harr := parse_arrItems d xs2 x rest
        (('"' :: (escChars x.data ++ ('"' :: (arrTail d xs2 ++ rest)))).length) hlen
      rw [printStrLit_cons] at harr
      simp only [List.length_append, List.length_cons] at harr
      simp [parseValue, skipWs_cons_not '[' _ rfl, printStrLit_cons, hskip2, harr]

/- ===== Helper lemmas: object round trip ===== -/

theorem parseValue_ws_cons (c : Char) (l : List Char) (h : isWsChar c = true) :
    parseValue (c :: l) = parseValue l := by
  unfold parseValue
  rw [skipWs_cons_ws c l h]

theorem objTail_length (d : Nat) (es : SRecord) : es.length ≤ (objTail d es).length := by
  induction es with
  | nil => simp [objTail]
  | cons e2 es2 ih =>
    simp only [objTail, List.length_cons, List.length_append]
    omega

theorem headIsDigit_objTail (d : Nat) (es : SRecord) (rest : List Char) :
    headIsDigit (objTail d es ++ rest) = false := by
  cases es <;> rfl

theorem keysOf_append (r1 r2 : SRecord) : keysOf (r1 ++ r2) = keysOf r1 ++ keysOf r2 := by
  simp [keysOf]

theorem parse_objItems (d : Nat) (es : SRecord) : ∀ (e : String × Value) (acc : SRecord)
    (rest : List Char) (fuel : Nat), es.length + 1 ≤ fuel →
    (keysOf (acc ++ e :: es)).Nodup →
    parseObjItems fuel acc
      (printStrLit e.1 ++ (':' :: ' ' :: (printValue (d + 1) e.2 ++ (objTail d es ++ rest)))) =
      some (acc ++ e :: es, rest) := by
  induction es with
  | nil =>
    intro e acc rest fuel hfuel hnd
    cases fuel with
    | zero => omega
    | succ f =>
      have hnotmem : e.1 ∉ keysOf acc := by
        rw [keysOf_append, List.nodup_append] at hnd
        intro hmem
        exact hnd.2.2 hmem (by simp [keysOf])
      have hpv : parseValue (' ' :: (printValue (d + 1) e.2 ++ (objTail d [] ++ rest))) =
          some (e.2, objTail d [] ++ rest) := by
        rw [parseValue_ws_cons ' ' _ rfl]
        exact parseValue_print e.2 (d + 1) _ (headIsDigit_objTail d [] rest)
      have hskipA : skipWs (objTail d [] ++ rest) = '}' :: rest := by
        show skipWs ('\n' :: (indentChars d ++ ['}']) ++ rest) = _
        rw [List.cons_append, skipWs_cons_ws '\n' _ rfl, List.append_assoc, skipWs_indent,
          List.singleton_append, skipWs_cons_not '}' _ rfl]
      have hset := setKey_of_not_mem acc e.1 e.2 hnotmem
      simp [parseObjItems, parseStrLit_print, skipWs_cons_not ':' _ rfl, hpv, hskipA,
        stringMk_data, hset]
  | cons e2 es2 ih =>
    intro e acc rest fuel hfuel hnd
    cases fuel with
    | zero => omega
    | succ f =>
      have hnotmem : e.1 ∉ keysOf acc := by
        rw [keysOf_append, List.nodup_append] at hnd
        intro hmem
        exact hnd.2.2 hmem (by simp [keysOf])
      have hpv : parseValue (' ' :: (printValue (d + 1) e.2 ++
          (objTail d (e2 :: es2) ++ rest))) =
          some (e.2, objTail d (e2 :: es2) ++ rest) := by
        rw [parseValue_ws_cons ' ' _ rfl]
        exact parseValue_print e.2 (d + 1) _ (headIsDigit_objTail d (e2 :: es2) rest)
      have hskipB : skipWs (objTail d (e2 :: es2) ++ rest) =
          ',' :: (('\n' :: (indentChars (d + 1) ++ printStrLit e2.1 ++ ':' :: ' ' ::
            (printValue (d + 1) e2.2 ++ objTail d es2))) ++ rest) := by
        show skipWs ((',' :: '\n' :: (indentChars (d + 1) ++ printStrLit e2.1 ++ ':' :: ' ' ::
          (printValue (d + 1) e2.2 ++ objTail d es2))) ++ rest) = _
        rw [List.cons_append, skipWs_cons_not ',' _ rfl]
      have hassoc : (('\n' :: (indentChars (d + 1) ++ printStrLit e2.1 ++ ':' :: ' ' ::
          (printValue (d + 1) e2.2 ++ objTail d es2))) ++ rest) =
          '\n' :: (indentChars (d + 1) ++ (printStrLit e2.1 ++ (':' :: ' ' ::
          (printValue (d + 1) e2.2 ++ (objTail d es2 ++ rest))))) := by
        simp [List.append_assoc]
      have hskipC : skipWs ('\n' :: (indentChars (d + 1) ++ (printStrLit e2.1 ++ (':' :: ' ' ::
          (printValue (d + 1) e2.2 ++ (objTail d es2 ++ rest)))))) =
          printStrLit e2.1 ++ (':' :: ' ' ::
          (printValue (d + 1) e2.2 ++ (objTail d es2 ++ rest))) := by
        rw [skipWs_cons_ws '\n' _ rfl, skipWs_indent, printStrLit_cons,
          skipWs_cons_not '"' _ rfl, ← printStrLit_cons]
      have hset := setKey_of_not_mem acc e.1 e.2 hnotmem
      have hndr : (keysOf ((acc ++ [e]) ++ e2 :: es2)).Nodup := by
        rw [List.append_assoc]
        simpa using hnd
      have hih := ih e2 (acc ++ [e]) rest f
        (by simp only [List.length_cons] at hfuel; omega) hndr
      simp [parseObjItems, parseStrLit_print, skipWs_cons_not ':' _ rfl, hpv, hskipB,
        hassoc, hskipC, stringMk_data, hset, hih, List.append_assoc]

/- ===== Helper lemmas: record and top-level round trip ===== -/

theorem parseRecord_print (r : SRecord) (d : Nat) (rest : List Char)
    (hnd : (keysOf r).Nodup) :
    parseRecord (printRecord d r ++ rest) = some (r, rest) := by
  cases r with
  | nil => rfl
  | cons e es =>
    show parseRecord (('{' :: '\n' :: (indentChars (d + 1) ++ printStrLit e.1 ++ ':' :: ' ' ::
      (printValue (d + 1) e.2 ++ objTail d es))) ++ rest) = _
    have hskip : skipWs ('\n' :: (indentChars (d + 1) ++ ('"' :: (escChars e.1.data ++
        ('"' :: (':' :: ' ' :: (printValue (d + 1) e.2 ++ (objTail d es ++ rest)))))))) =
        '"' :: (escChars e.1.data ++
        ('"' :: (':' :: ' ' :: (printValue (d + 1) e.2 ++ (objTail d es ++ rest))))) := by
      rw [skipWs_cons_ws '\n' _ rfl, skipWs_indent, skipWs_cons_not '"' _ rfl]
    have hlen : es.length + 1 ≤ ('"' :: (escChars e.1.data ++ ('"' :: (':' :: ' ' ::
        (printValue (d + 1) e.2 ++ (objTail d es ++ rest)))))).length := by
      have := objTail_length d es
      simp [List.length_append]
      omega
    have hobj := parse_objItems d es e [] rest
      (('"' :: (escChars e.1.data ++ ('"' :: (':' :: ' ' ::
        (printValue (d + 1) e.2 ++ (objTail d es ++ rest)))))).length) hlen
      (by simpa using hnd)
    rw [printStrLit_cons] at hobj
    simp only [List.length_append, List.length_cons] at hobj
    simp [parseRecord, hskip, printStrLit_cons, hobj]

theorem topTail_length (rs : List SRecord) : rs.length ≤ (topTail rs).length := by
  induction rs with
  | nil => simp [topTail]
  | cons r2 rs2 ih =>
    simp only [topTail, List.length_cons, List.length_append]
    omega

theorem skipWs_printRecord (d : Nat) (r : SRecord) (X : List Char) :
    skipWs (printRecord d r ++ X) = printRecord d r ++ X := by
  cases r with
  | nil => exact skipWs_cons_not '{' _ rfl
  | cons e es => exact skipWs_cons_not '{' _ rfl

theorem printRecord_head (d : Nat) (r : SRecord) :
    ∃ t, printRecord d r = '{' :: t := by
  cases r with
  | nil => exact ⟨['}'], rfl⟩
  | cons e es => exact ⟨_, rfl⟩

theorem parse_topItems (rs : List SRecord) : ∀ (r : SRecord) (rest : List Char) (fuel : Nat),
    rs.length + 1 ≤ fuel → (keysOf r).Nodup → (∀ x ∈ rs, (keysOf x).Nodup) →
    parseTopItems fuel (printRecord 1 r ++ (topTail rs ++ rest)) = some (r :: rs, rest) := by
  induction rs with
  | nil =>
    intro r rest fuel hfuel hnd _
    cases fuel with
    | zero => omega
    | succ f =>
      have hskip : skipWs (topTail [] ++ rest) = ']' :: rest := by
        show skipWs ('\n' :: ']' :: rest) = _
        rw [skipWs_cons_ws '\n' _ rfl, skipWs_cons_not ']' _ rfl]
      simp [parseTopItems, parseRecord_print r 1 _ hnd, hskip]
  | cons r2 rs2 ih =>
    intro r rest fuel hfuel hnd hall
    cases fuel with
    | zero => omega
    | succ f =>
      have hskipB : skipWs (topTail (r2 :: rs2) ++ rest) =
          ',' :: (('\n' :: (indentChars 1 ++ printRecord 1 r2 ++ topTail rs2)) ++ rest) := by
        show skipWs ((',' :: '\n' :: (indentChars 1 ++ printRecord 1 r2 ++ topTail rs2))
          ++ rest) = _
        rw [List.cons_append, skipWs_cons_not ',' _ rfl]
      have hassoc : (('\n' :: (indentChars 1 ++ printRecord 1 r2 ++ topTail rs2)) ++ rest) =
          '\n' :: (indentChars 1 ++ (printRecord 1 r2 ++ (topTail rs2 ++ rest))) := by
        simp [List.append_assoc]
      have hskipC : skipWs ('\n' :: (indentChars 1 ++
          (printRecord 1 r2 ++ (topTail rs2 ++ rest)))) =
          printRecord 1 r2 ++ (topTail rs2 ++ rest) := by
        rw [skipWs_cons_ws '\n' _ rfl, skipWs_indent, skipWs_printRecord]
      have hih := ih r2 rest f (by simp only [List.length_cons] at hfuel; omega)
        (hall r2 (List.mem_cons_self r2 rs2))
        (fun x hx => hall x (List.mem_cons_of_mem r2 hx))
      simp [parseTopItems, parseRecord_print r 1 _ hnd, hskipB, hassoc, hskipC, hih]

/- ===== Claim C9 ===== -/

/-- Claim C9: serializing a response list as the submit handler writes the
store file (`JSON.stringify(list, null, 2)`) and parsing it back as the
read paths do (`JSON.parse`) recovers the identical ordered record
sequence, field for field.  Stated for lists whose records have pairwise
distinct keys, which is every JS object. -/
theorem C9_json_round_trip (rs : List SRecord) (hnd : ∀ r ∈ rs, (keysOf r).Nodup) :
    parseResponses (stringifyResponses rs) = some rs := by
  cases rs with
  | nil => rfl
  | cons r rest =>
    show parseResponses (String.mk ('[' :: '\n' ::
      (indentChars 1 ++ printRecord 1 r ++ topTail rest))) = _
    obtain ⟨t, ht⟩ := printRecord_head 1 r
    rw [ht]
    have hskip : skipWs ('\n' :: (indentChars 1 ++ ('{' :: (t ++ topTail rest)))) =
        '{' :: (t ++ topTail rest) := by
      rw [skipWs_cons_ws '\n' _ rfl, skipWs_indent, skipWs_cons_not '{' _ rfl]
    have hfuel : rest.length + 1 ≤ (printRecord 1 r ++ topTail rest).length := by
      have h1 := topTail_length rest
      have h2 : 1 ≤ (printRecord 1 r).length := by
        rw [ht]
        simp
      simp only [List.length_append]
      omega
    have htop := parse_topItems rest r [] ((printRecord 1 r ++ topTail rest).length) hfuel
      (hnd r (List.mem_cons_self r rest)) (fun x hx => hnd x (List.mem_cons_of_mem r hx))
    rw [List.append_nil] at htop
    rw [ht] at htop
    simp only [List.length_cons, List.cons_append, List.length_append] at htop
    have hnil : skipWs ([] : List Char) = [] := rfl
    simp [parseResponses, skipWs_cons_not '[' _ rfl, hskip, htop, hnil]

/-- Witness for C9: the concrete sample list round-trips through the
persisted JSON text. -/
theorem C9_witness :
    (∀ r ∈ sampleResponses, (keysOf r).Nodup)
    ∧ parseResponses (stringifyResponses sampleResponses) = some sampleResponses :=
  ⟨by decide, C9_json_round_trip sampleResponses (by decide)⟩
